import Mathlib

/-!
Verification development for the social-content backend engine
(engine/social_engine.go together with utils/common.go).

The Go engine keeps five tables (users, forums, contents, feedbacks,
chat inboxes) behind a single writer and processes one typed command at
a time.  Go maps are modelled as association lists over String keys;
Go sets (map[string]bool, which the code only ever stores true into or
deletes from) are modelled as lists of strings queried by membership.
Shared pointers ([]*proto.Content, []*proto.Feedback) are modelled by
storing ids in the lists and keeping every record only in its table.
Nondeterministic environment inputs (utils.GenerateID results and
time.Now values) are explicit parameters of the commands.
-/

namespace RedditClone

/-! Association lists modelling Go maps: lookup finds the first binding,
insertion replaces the first binding of the key or appends a new one,
exactly as a map assignment behaves when keys are unique. -/

def lookupA {α : Type} (m : List (String × α)) (k : String) : Option α :=
  match m with
  | [] => none
  | (k', v) :: rest => if k' = k then some v else lookupA rest k

def lookupD {α : Type} (m : List (String × α)) (k : String) (d : α) : α :=
  (lookupA m k).getD d

def insertA {α : Type} (m : List (String × α)) (k : String) (v : α) :
    List (String × α) :=
  match m with
  | [] => [(k, v)]
  | (k', v') :: rest =>
      if k' = k then (k, v) :: rest else (k', v') :: insertA rest k v

def keysA {α : Type} (m : List (String × α)) : List String :=
  m.map Prod.fst

def sumVals (m : List (String × Int)) : Int :=
  (m.map Prod.snd).sum

/-! Data model, mirroring the Go structs (engine/social_engine.go 14-36
and proto/messages.proto).  Integer fields that are int32/int64 in Go
are modelled as Int; timestamps are Unix seconds. -/

structure UserData where
  handle : String
  points : Int
  forums : List String
  isOnline : Bool
  lastSeen : Int
  deriving DecidableEq, Repr

structure ForumData where
  name : String
  members : List String
  contents : List String
  created : Int
  deriving DecidableEq, Repr

structure Content where
  contentId : String
  creator : String
  subreddit : String
  heading : String
  body : String
  timestamp : Int
  feedback : List String
  reactions : List (String × Int)
  points : Int
  isShare : Bool
  originalContentId : String
  deriving DecidableEq, Repr

structure Feedback where
  feedbackId : String
  contentId : String
  creator : String
  body : String
  timestamp : Int
  parentId : String
  replies : List String
  reactions : List (String × Int)
  points : Int
  deriving DecidableEq, Repr

structure DirectChat where
  messageId : String
  sender : String
  receiver : String
  content : String
  timestamp : Int
  seen : Bool
  deriving DecidableEq, Repr

structure EngineState where
  users : List (String × UserData)
  forums : List (String × ForumData)
  contents : List (String × Content)
  feedbacks : List (String × Feedback)
  chats : List (String × List DirectChat)
  deriving DecidableEq, Repr

def initState : EngineState :=
  { users := [], forums := [], contents := [], feedbacks := [], chats := [] }

/-! Response types, flattening the proto response messages to the fields
the engine actually fills in. -/

structure SimpleResponse where
  success : Bool
  message : String
  deriving DecidableEq, Repr

structure CreateResponse where
  success : Bool
  message : String
  id : String
  deriving DecidableEq, Repr

structure FeedBundle where
  success : Bool
  message : String
  contents : List Content
  deriving DecidableEq, Repr

structure ChatBundle where
  success : Bool
  message : String
  messages : List DirectChat
  deriving DecidableEq, Repr

/-! Command handlers, one per Go handler, in source order. -/

/-- handleOnboarding (social_engine.go 81-114). -/
def handleOnboarding (s : EngineState) (userHandle : String) (now : Int) :
    EngineState × SimpleResponse :=
  if userHandle = "" then
    (s, ⟨false, "Username cannot be empty"⟩)
  else
    match lookupA s.users userHandle with
    | some _ => (s, ⟨false, "Username already exists"⟩)
    | none =>
        let u : UserData :=
          { handle := userHandle, points := 0, forums := [],
            isOnline := true, lastSeen := now }
        ({ s with users := insertA s.users userHandle u },
         ⟨true, "User registered successfully"⟩)

/-- handleForumCreation (social_engine.go 116-148). -/
def handleForumCreation (s : EngineState) (name : String) (now : Int) :
    EngineState × SimpleResponse :=
  if name = "" then
    (s, ⟨false, "Forum name cannot be empty"⟩)
  else
    match lookupA s.forums name with
    | some _ => (s, ⟨false, "Forum already exists"⟩)
    | none =>
        let f : ForumData :=
          { name := name, members := [], contents := [], created := now }
        ({ s with forums := insertA s.forums name f },
         ⟨true, "Forum created successfully"⟩)

/-- handleForumJoin (social_engine.go 150-189). -/
def handleForumJoin (s : EngineState) (userHandle subreddit : String) :
    EngineState × SimpleResponse :=
  match lookupA s.users userHandle with
  | none => (s, ⟨false, "User not found"⟩)
  | some user =>
      match lookupA s.forums subreddit with
      | none => (s, ⟨false, "Forum not found"⟩)
      | some forum =>
          if forum.members.contains userHandle then
            (s, ⟨false, "User already a member"⟩)
          else
            let forum' := { forum with members := forum.members ++ [userHandle] }
            let user' := { user with forums := user.forums ++ [subreddit] }
            ({ s with forums := insertA s.forums subreddit forum',
                      users := insertA s.users userHandle user' },
             ⟨true, "Joined forum successfully"⟩)

/-- handleForumLeave (social_engine.go 191-222). -/
def handleForumLeave (s : EngineState) (userHandle subreddit : String) :
    EngineState × SimpleResponse :=
  match lookupA s.users userHandle, lookupA s.forums subreddit with
  | some user, some forum =>
      if forum.members.contains userHandle then
        let forum' :=
          { forum with members := forum.members.filter (fun x => x != userHandle) }
        let user' :=
          { user with forums := user.forums.filter (fun x => x != subreddit) }
        ({ s with forums := insertA s.forums subreddit forum',
                  users := insertA s.users userHandle user' },
         ⟨true, "Left forum successfully"⟩)
      else
        (s, ⟨false, "User is not a member"⟩)
  | _, _ => (s, ⟨false, "User or forum not found"⟩)

/-- handleContentCreation (social_engine.go 248-293); freshId stands for
the utils.GenerateID result and now for time.Now().Unix(). -/
def handleContentCreation (s : EngineState)
    (userHandle subreddit heading body : String) (isShare : Bool)
    (originalContentId : String) (freshId : String) (now : Int) :
    EngineState × CreateResponse :=
  match lookupA s.users userHandle with
  | none => (s, ⟨false, "User not found", ""⟩)
  | some _ =>
      match lookupA s.forums subreddit with
      | none => (s, ⟨false, "Forum not found", ""⟩)
      | some forum =>
          let content : Content :=
            { contentId := freshId, creator := userHandle,
              subreddit := subreddit, heading := heading, body := body,
              timestamp := now, feedback := [], reactions := [],
              points := 0, isShare := isShare,
              originalContentId := originalContentId }
          let forum' := { forum with contents := forum.contents ++ [freshId] }
          ({ s with contents := insertA s.contents freshId content,
                    forums := insertA s.forums subreddit forum' },
           ⟨true, "Content created successfully", freshId⟩)

/-- handleFeedbackCreation (social_engine.go 295-350).  Note that the Go
code stores the new feedback into s.feedbacks before it checks whether a
non-empty ParentId names an existing parent, so on a missing parent the
handler reports failure while the orphan record stays in the table. -/
def handleFeedbackCreation (s : EngineState)
    (userHandle contentId parentId body : String) (freshId : String)
    (now : Int) : EngineState × CreateResponse :=
  match lookupA s.users userHandle with
  | none => (s, ⟨false, "User not found", ""⟩)
  | some _ =>
      match lookupA s.contents contentId with
      | none => (s, ⟨false, "Content not found", ""⟩)
      | some content =>
          let feedback : Feedback :=
            { feedbackId := freshId, contentId := contentId,
              creator := userHandle, body := body, timestamp := now,
              parentId := parentId, replies := [], reactions := [],
              points := 0 }
          let s₁ := { s with feedbacks := insertA s.feedbacks freshId feedback }
          if parentId = "" then
            let content' := { content with feedback := content.feedback ++ [freshId] }
            ({ s₁ with contents := insertA s₁.contents contentId content' },
             ⟨true, "Feedback created successfully", freshId⟩)
          else
            match lookupA s₁.feedbacks parentId with
            | some parent =>
                let parent' := { parent with replies := parent.replies ++ [freshId] }
                ({ s₁ with feedbacks := insertA s₁.feedbacks parentId parent' },
                 ⟨true, "Feedback created successfully", freshId⟩)
            | none => (s₁, ⟨false, "Parent feedback not found", ""⟩)

/-- Reaction upsert on a content (social_engine.go 373-375): the
previous value (Go map default 0) is replaced and points adjusted by
the difference. -/
def reactContent (content : Content) (userHandle : String) (value : Int) :
    Content :=
  { content with
      reactions := insertA content.reactions userHandle value,
      points := content.points +
        (value - lookupD content.reactions userHandle 0) }

/-- Reaction upsert on a feedback (social_engine.go 380-382). -/
def reactFeedback (feedback : Feedback) (userHandle : String) (value : Int) :
    Feedback :=
  { feedback with
      reactions := insertA feedback.reactions userHandle value,
      points := feedback.points +
        (value - lookupD feedback.reactions userHandle 0) }

/-- handleReaction (social_engine.go 352-399).  A reaction value is +1
for positive and -1 otherwise. -/
def handleReaction (s : EngineState) (userHandle itemId : String)
    (isPositive isContent : Bool) : EngineState × SimpleResponse :=
  match lookupA s.users userHandle with
  | none => (s, ⟨false, "User not found"⟩)
  | some _ =>
      let value : Int := if isPositive then 1 else -1
      if isContent then
        match lookupA s.contents itemId with
        | some content =>
            let content' := reactContent content userHandle value
            ({ s with contents := insertA s.contents itemId content' },
             ⟨true, "Reaction recorded successfully"⟩)
        | none => (s, ⟨false, "Item not found"⟩)
      else
        match lookupA s.feedbacks itemId with
        | some feedback =>
            let feedback' := reactFeedback feedback userHandle value
            ({ s with feedbacks := insertA s.feedbacks itemId feedback' },
             ⟨true, "Reaction recorded successfully"⟩)
        | none => (s, ⟨false, "Item not found"⟩)

/-- handleChatDelivery (social_engine.go 492-526); the engine overwrites
MessageId, Timestamp and Seen before appending to the receiver's inbox. -/
def handleChatDelivery (s : EngineState) (sender receiver content : String)
    (freshId : String) (now : Int) : EngineState × SimpleResponse :=
  match lookupA s.users sender with
  | none => (s, ⟨false, "Sender not found"⟩)
  | some _ =>
      match lookupA s.users receiver with
      | none => (s, ⟨false, "Receiver not found"⟩)
      | some _ =>
          let m : DirectChat :=
            { messageId := freshId, sender := sender, receiver := receiver,
              content := content, timestamp := now, seen := false }
          let inbox := lookupD s.chats receiver [] ++ [m]
          ({ s with chats := insertA s.chats receiver inbox },
           ⟨true, "Message delivered successfully"⟩)

/-- handleChatRetrieval (social_engine.go 528-553); every message in the
queried inbox is marked seen, and the marked list is returned.  When the
user has no inbox entry the Go range over the nil slice does nothing and
no entry is created. -/
def handleChatRetrieval (s : EngineState) (userHandle : String) :
    EngineState × ChatBundle :=
  match lookupA s.users userHandle with
  | none => (s, ⟨false, "User not found", []⟩)
  | some _ =>
      match lookupA s.chats userHandle with
      | none => (s, ⟨true, "Messages retrieved successfully", []⟩)
      | some messages =>
          let marked := messages.map (fun m => { m with seen := true })
          ({ s with chats := insertA s.chats userHandle marked },
           ⟨true, "Messages retrieved successfully", marked⟩)

/-- handleActivityUpdate (social_engine.go 555-576). -/
def handleActivityUpdate (s : EngineState) (userHandle : String)
    (isOnline : Bool) (now : Int) : EngineState × SimpleResponse :=
  match lookupA s.users userHandle with
  | none => (s, ⟨false, "User not found"⟩)
  | some user =>
      let user' := { user with isOnline := isOnline, lastSeen := now }
      ({ s with users := insertA s.users userHandle user' },
       ⟨true, "Activity status updated successfully"⟩)

/-- cleanup (social_engine.go 580-603): drops from every inbox the chats
whose timestamp is not strictly greater than thirty days before now
(time.Now().AddDate(0,0,-30).Unix(), modelled as now - 30*86400), and
forces offline every online user last seen strictly before five minutes
ago. -/
def sweepInbox (thirtyDaysAgo : Int) (inbox : List DirectChat) :
    List DirectChat :=
  inbox.filter (fun m => thirtyDaysAgo < m.timestamp)

def sweepUser (fiveMinutesAgo : Int) (u : UserData) : UserData :=
  if u.isOnline ∧ u.lastSeen < fiveMinutesAgo then
    { u with isOnline := false }
  else u

def cleanup (s : EngineState) (now : Int) : EngineState :=
  { s with
      chats := s.chats.map (fun p => (p.1, sweepInbox (now - 30 * 86400) p.2)),
      users := s.users.map (fun p => (p.1, sweepUser (now - 5 * 60) p.2)) }

/-! Feed ranking (handleFeedRequest, social_engine.go 422-490, and
utils.CalculateHotScore, common.go 51-61).  The Go score is computed in
float64; it is modelled here over the reals with the same formula. -/

/-- CalculateHotScore (common.go 51-61): sign(ups-downs) *
log10(max(|ups-downs|, 1)) + (timestamp - 1577836800) / 45000. -/
noncomputable def CalculateHotScore (ups downs : Nat) (timestamp : Int) : ℝ :=
  let score : ℝ := (ups : ℝ) - (downs : ℝ)
  let order : ℝ := Real.logb 10 (max |score| 1)
  let sign : ℝ := if score < 0 then -1 else 1
  sign * order + ((timestamp : ℝ) - 1577836800) / 45000

/-- Ups of a content as counted by the hot comparator
(social_engine.go 447-455): reactions with value > 0. -/
def upsOf (c : Content) : Nat :=
  (c.reactions.filter (fun p => decide (0 < p.2))).length

/-- Downs of a content as counted by the hot comparator: all remaining
reactions. -/
def downsOf (c : Content) : Nat :=
  (c.reactions.filter (fun p => !(decide (0 < p.2)))).length

noncomputable def contentHotScore (c : Content) : ℝ :=
  CalculateHotScore (upsOf c) (downsOf c) c.timestamp

/-- Sorting a with the hot comparator: a before b when score(a) is not
below score(b); sort.Slice with the strict less of the Go code yields
exactly the orderings that are sorted for this relation. -/
noncomputable def hotLe (a b : Content) : Bool :=
  decide (contentHotScore b ≤ contentHotScore a)

def newLe (a b : Content) : Bool :=
  decide (b.timestamp ≤ a.timestamp)

def topLe (a b : Content) : Bool :=
  decide (b.points ≤ a.points)

/-- Sorting and truncation of handleFeedRequest (social_engine.go
443-483): the switch sorts only for the exact strings "hot", "new",
"top"; afterwards the slice is truncated to limit entries when
limit > 0 and the slice is longer. -/
noncomputable def rankFeed (contents : List Content) (sortMethod : String)
    (limit : Int) : List Content :=
  let sorted :=
    if sortMethod = "hot" then contents.mergeSort hotLe
    else if sortMethod = "new" then contents.mergeSort newLe
    else if sortMethod = "top" then contents.mergeSort topLe
    else contents
  if 0 < limit ∧ limit < (sorted.length : Int) then
    sorted.take limit.toNat
  else sorted

/-- Content gathering of handleFeedRequest (social_engine.go 436-441):
all contents of all forums the user joined. -/
def gatherContents (s : EngineState) (user : UserData) : List Content :=
  user.forums.flatMap (fun forumName =>
    match lookupA s.forums forumName with
    | some forum => forum.contents.filterMap (fun cid => lookupA s.contents cid)
    | none => [])

/-- handleFeedRequest (social_engine.go 422-490).  The handler takes
only the read lock and never mutates the store, so it is modelled as a
pure response function. -/
noncomputable def handleFeedRequest (s : EngineState)
    (userHandle sortMethod : String) (limit : Int) : FeedBundle :=
  match lookupA s.users userHandle with
  | none => ⟨false, "User not found", []⟩
  | some user =>
      ⟨true, "Feed retrieved successfully",
       rankFeed (gatherContents s user) sortMethod limit⟩

/-! Commands and the single-writer step function.  GenerateID results
and time.Now readings are carried in the command as environment
inputs. -/

inductive Command where
  | onboardUser (handle : String) (now : Int)
  | createForum (name : String) (now : Int)
  | joinForum (handle subreddit : String)
  | leaveForum (handle subreddit : String)
  | createContent (handle subreddit heading body : String) (isShare : Bool)
      (originalContentId freshId : String) (now : Int)
  | createFeedback (handle contentId parentId body freshId : String) (now : Int)
  | react (handle itemId : String) (isPositive isContent : Bool)
  | getFeed (handle sortMethod : String) (limit : Int)
  | getPost (contentId : String)
  | getForumDetails (forumName : String)
  | sendMessage (sender receiver body freshId : String) (now : Int)
  | getChats (handle : String)
  | setActivity (handle : String) (isOnline : Bool) (now : Int)
  | sweep (now : Int)
  deriving DecidableEq, Repr

/-- State transition of one command.  GetFeed, GetPost and
GetForumDetails take only the read lock and mutate nothing; the
Maintenance Sweeper (sweep) is the cleanup helper entering the same
single-writer sequence. -/
def step (s : EngineState) (c : Command) : EngineState :=
  match c with
  | .onboardUser h now => (handleOnboarding s h now).1
  | .createForum n now => (handleForumCreation s n now).1
  | .joinForum h f => (handleForumJoin s h f).1
  | .leaveForum h f => (handleForumLeave s h f).1
  | .createContent h f t b sh o id now =>
      (handleContentCreation s h f t b sh o id now).1
  | .createFeedback h c p b id now =>
      (handleFeedbackCreation s h c p b id now).1
  | .react h i p c => (handleReaction s h i p c).1
  | .getFeed _ _ _ => s
  | .getPost _ => s
  | .getForumDetails _ => s
  | .sendMessage a b m id now => (handleChatDelivery s a b m id now).1
  | .getChats h => (handleChatRetrieval s h).1
  | .setActivity h o now => (handleActivityUpdate s h o now).1
  | .sweep now => cleanup s now

def run (s : EngineState) (cs : List Command) : EngineState :=
  cs.foldl step s

/-! The membership-symmetry invariant of the store (spec invariant 2),
strengthened with id uniqueness and ghost-freeness so that it is
inductive over the step function. -/

def membershipSym (s : EngineState) : Prop :=
  ∀ p ∈ s.users, ∀ q ∈ s.forums, p.1 ∈ q.2.members ↔ q.1 ∈ p.2.forums

def memInv (s : EngineState) : Prop :=
  (keysA s.users).Nodup ∧ (keysA s.forums).Nodup ∧
  (∀ q ∈ s.forums, ∀ h ∈ q.2.members, h ∈ keysA s.users) ∧
  (∀ p ∈ s.users, ∀ fn ∈ p.2.forums, fn ∈ keysA s.forums) ∧
  membershipSym s

/-! The reaction invariant (spec invariant 3): every reaction map has at
most one entry per user and points is the sum of the live values. -/

def reactionMapOk (r : List (String × Int)) (points : Int) : Prop :=
  (keysA r).Nodup ∧ points = sumVals r

def reactionInv (s : EngineState) : Prop :=
  (∀ p ∈ s.contents, reactionMapOk p.2.reactions p.2.points) ∧
  (∀ p ∈ s.feedbacks, reactionMapOk p.2.reactions p.2.points)

/-! Concrete example data used by witnesses and counterexamples. -/

def userA : UserData := ⟨"A", 0, [], true, 0⟩

def userB : UserData := ⟨"B", 0, [], true, 0⟩

def contentC1 : Content := ⟨"c1", "A", "F", "t", "b", 0, [], [], 0, false, ""⟩

def sC1 : EngineState := ⟨[("A", userA)], [], [("c1", contentC1)], [], []⟩

def chatM0 : DirectChat := ⟨"m1", "A", "B", "hey", 0, false⟩

def sC8 : EngineState :=
  ⟨[("A", userA), ("B", userB)], [], [], [], [("B", [chatM0])]⟩

def userAF : UserData := ⟨"A", 0, ["F"], true, 0⟩

def forumF : ForumData := ⟨"F", ["A"], ["p1", "p2"], 0⟩

def contentP1 : Content :=
  ⟨"p1", "A", "F", "h1", "b1", 1577836800, [], [], 0, false, ""⟩

def contentP2 : Content :=
  ⟨"p2", "A", "F", "h2", "b2", 1577881800, [], [], 0, false, ""⟩

def sC2 : EngineState :=
  ⟨[("A", userAF)], [("F", forumF)], [("p1", contentP1), ("p2", contentP2)],
   [], []⟩

def nowEx : Int := 2592000

def forumG : ForumData := ⟨"G", [], [], 0⟩

def contentR : Content := ⟨"c1", "A", "F", "t", "b", 0, [], [("A", 1)], 1, false, ""⟩

def sC3 : EngineState := ⟨[("A", userA)], [], [("c1", contentR)], [], []⟩

def feedbackR : Feedback := ⟨"f1", "c1", "A", "b", 0, "", [], [("A", 1)], 1⟩

def sC3f : EngineState := ⟨[("A", userA)], [], [], [("f1", feedbackR)], []⟩

def sC7 : EngineState := ⟨[("A", userA), ("B", userB)], [], [], [], []⟩

def sC5 : EngineState := ⟨[("A", userA)], [("G", forumG)], [], [], []⟩

/-! Lemma library for the association lists. -/

theorem lookupA_mem {α : Type} {m : List (String × α)} {k : String} {v : α}
    (h : lookupA m k = some v) : (k, v) ∈ m := by
  induction m with
  | nil => simp [lookupA] at h
  | cons p rest ih =>
      obtain ⟨k', v'⟩ := p
      by_cases hk : k' = k
      · subst hk
        simp [lookupA] at h
        simp [h]
      · simp [lookupA, hk] at h
        exact List.mem_cons_of_mem _ (ih h)

theorem mem_insertA {α : Type} {m : List (String × α)} {k : String} {v : α}
    {p : String × α} (h : p ∈ insertA m k v) : p = (k, v) ∨ p ∈ m := by
  induction m with
  | nil => simpa [insertA] using h
  | cons q rest ih =>
      obtain ⟨k', v'⟩ := q
      by_cases hk : k' = k
      · subst hk
        simp [insertA] at h
        rcases h with h | h
        · exact Or.inl h
        · exact Or.inr (List.mem_cons_of_mem _ h)
      · simp [insertA, hk] at h
        rcases h with h | h
        · exact Or.inr (by simp [h])
        · rcases ih h with h' | h'
          · exact Or.inl h'
          · exact Or.inr (List.mem_cons_of_mem _ h')

theorem lookupA_insertA_self {α : Type} (m : List (String × α)) (k : String)
    (v : α) : lookupA (insertA m k v) k = some v := by
  induction m with
  | nil => simp [insertA, lookupA]
  | cons q rest ih =>
      obtain ⟨k', v'⟩ := q
      by_cases hk : k' = k
      · subst hk
        simp [insertA, lookupA]
      · simp [insertA, lookupA, hk, ih]

theorem lookupA_insertA_ne {α : Type} (m : List (String × α)) {k k' : String}
    (v : α) (h : k' ≠ k) : lookupA (insertA m k v) k' = lookupA m k' := by
  induction m with
  | nil => simp [insertA, lookupA, Ne.symm h]
  | cons q rest ih =>
      obtain ⟨k₀, v₀⟩ := q
      by_cases hk : k₀ = k
      · subst hk
        simp [insertA, lookupA, Ne.symm h]
      · simp only [insertA, hk, if_false, lookupA]
        by_cases hk' : k₀ = k'
        · simp [hk']
        · simp [hk', ih]

theorem insertA_insertA {α : Type} (m : List (String × α)) (k : String)
    (v w : α) : insertA (insertA m k v) k w = insertA m k w := by
  induction m with
  | nil => simp [insertA]
  | cons q rest ih =>
      obtain ⟨k', v'⟩ := q
      by_cases hk : k' = k
      · subst hk
        simp [insertA]
      · simp [insertA, hk, ih]

theorem insertA_lookupA_eq {α : Type} {m : List (String × α)} {k : String}
    {v : α} (h : lookupA m k = some v) : insertA m k v = m := by
  induction m with
  | nil => simp [lookupA] at h
  | cons q rest ih =>
      obtain ⟨k', v'⟩ := q
      by_cases hk : k' = k
      · subst hk
        simp [lookupA] at h
        simp [insertA, h]
      · simp [lookupA, hk] at h
        simp [insertA, hk, ih h]

theorem insertA_lookupA_none {α : Type} {m : List (String × α)} {k : String}
    (h : lookupA m k = none) (v : α) : insertA m k v = m ++ [(k, v)] := by
  induction m with
  | nil => simp [insertA]
  | cons q rest ih =>
      obtain ⟨k', v'⟩ := q
      by_cases hk : k' = k
      · subst hk
        simp [lookupA] at h
      · simp [lookupA, hk] at h
        simp [insertA, hk, ih h]

theorem lookupA_eq_none_iff {α : Type} {m : List (String × α)} {k : String} :
    lookupA m k = none ↔ k ∉ keysA m := by
  induction m with
  | nil => simp [lookupA, keysA]
  | cons q rest ih =>
      obtain ⟨k', v'⟩ := q
      by_cases hk : k' = k
      · subst hk
        simp [lookupA, keysA]
      · simp [lookupA, keysA, hk, Ne.symm hk, ih]

theorem keysA_insertA_of_mem {α : Type} {m : List (String × α)} {k : String}
    (v : α) (h : k ∈ keysA m) : keysA (insertA m k v) = keysA m := by
  induction m with
  | nil => simp [keysA] at h
  | cons q rest ih =>
      obtain ⟨k', v'⟩ := q
      by_cases hk : k' = k
      · subst hk
        simp [insertA, keysA]
      · simp only [keysA, List.map_cons, List.mem_cons] at h
        rcases h with h | h
        · exact absurd h.symm hk
        · simp only [insertA, hk, if_false, keysA, List.map_cons]
          simp only [keysA] at ih
          rw [ih h]

theorem keysA_insertA_of_not_mem {α : Type} {m : List (String × α)}
    {k : String} (v : α) (h : k ∉ keysA m) :
    keysA (insertA m k v) = keysA m ++ [k] := by
  rw [insertA_lookupA_none (lookupA_eq_none_iff.mpr h)]
  simp [keysA]

theorem keysA_nodup_insertA {α : Type} {m : List (String × α)} (k : String)
    (v : α) (h : (keysA m).Nodup) : (keysA (insertA m k v)).Nodup := by
  by_cases hk : k ∈ keysA m
  · rw [keysA_insertA_of_mem v hk]; exact h
  · rw [keysA_insertA_of_not_mem v hk]
    simpa [List.nodup_append] using ⟨h, fun hh => hk hh⟩

theorem sumVals_insertA (m : List (String × Int)) (k : String) (v : Int) :
    sumVals (insertA m k v) = sumVals m - lookupD m k 0 + v := by
  induction m with
  | nil => simp [insertA, sumVals, lookupD, lookupA]
  | cons q rest ih =>
      obtain ⟨k', v'⟩ := q
      by_cases hk : k' = k
      · subst hk
        simp [insertA, sumVals, lookupD, lookupA]
        ring
      · simp only [insertA, hk, if_false]
        simp only [sumVals, List.map_cons, List.sum_cons] at ih ⊢
        simp only [lookupD, lookupA, hk, if_false] at ih ⊢
        omega

theorem lookupA_mapVal {α β : Type} (f : α → β) (m : List (String × α))
    (k : String) :
    lookupA (m.map (fun p => (p.1, f p.2))) k = (lookupA m k).map f := by
  induction m with
  | nil => simp [lookupA]
  | cons q rest ih =>
      obtain ⟨k', v'⟩ := q
      by_cases hk : k' = k
      · subst hk
        simp [lookupA]
      · simp [lookupA, hk, ih]

theorem mem_keysA_of_lookupA {α : Type} {m : List (String × α)} {k : String}
    {v : α} (h : lookupA m k = some v) : k ∈ keysA m := by
  have hm := lookupA_mem h
  simp only [keysA, List.mem_map]
  exact ⟨(k, v), hm, rfl⟩

theorem mem_insertA_iff {α : Type} {m : List (String × α)} {k : String}
    {v : α} {p : String × α} (hnd : (keysA m).Nodup) :
    p ∈ insertA m k v ↔ p = (k, v) ∨ (p ∈ m ∧ p.1 ≠ k) := by
  induction m with
  | nil => simp [insertA]
  | cons q rest ih =>
      obtain ⟨k₀, v₀⟩ := q
      simp only [keysA, List.map_cons, List.nodup_cons] at hnd
      obtain ⟨hk₀, hndr⟩ := hnd
      have ihr := ih hndr
      by_cases hk : k₀ = k
      · subst hk
        have hins : insertA ((k₀, v₀) :: rest) k₀ v = (k₀, v) :: rest := by
          simp [insertA]
        have hrest : ∀ x ∈ rest, x.1 ≠ k₀ := by
          intro x hx hxk
          exact hk₀ (by simpa [hxk] using List.mem_map_of_mem Prod.fst hx)
        rw [hins]
        simp only [List.mem_cons]
        constructor
        · intro hmem
          rcases hmem with h₁ | h₁
          · exact Or.inl h₁
          · exact Or.inr ⟨Or.inr h₁, hrest _ h₁⟩
        · intro hmem
          rcases hmem with h₁ | ⟨h₁, hpk⟩
          · exact Or.inl h₁
          · rcases h₁ with h₂ | h₂
            · exact absurd (congrArg Prod.fst h₂) hpk
            · exact Or.inr h₂
      · have hins : insertA ((k₀, v₀) :: rest) k v =
            (k₀, v₀) :: insertA rest k v := by
          simp [insertA, hk]
        rw [hins]
        simp only [List.mem_cons, ihr]
        constructor
        · intro hmem
          rcases hmem with h₁ | h₁ | ⟨h₁, hpk⟩
          · exact Or.inr ⟨Or.inl h₁, by rw [h₁]; exact hk⟩
          · exact Or.inl h₁
          · exact Or.inr ⟨Or.inr h₁, hpk⟩
        · intro hmem
          rcases hmem with h₁ | ⟨h₁, hpk⟩
          · exact Or.inr (Or.inl h₁)
          · rcases h₁ with h₂ | h₂
            · exact Or.inl h₂
            · exact Or.inr (Or.inr ⟨h₂, hpk⟩)

theorem keysA_map {α β : Type} (f : α → β) (m : List (String × α)) :
    keysA (m.map (fun p => (p.1, f p.2))) = keysA m := by
  simp [keysA, List.map_map]

theorem sweepUser_forums (t : Int) (u : UserData) :
    (sweepUser t u).forums = u.forums := by
  unfold sweepUser
  split <;> rfl

theorem sweepUser_handle (t : Int) (u : UserData) :
    (sweepUser t u).handle = u.handle := by
  unfold sweepUser
  split <;> rfl

theorem memInv_initState : memInv initState := by
  refine ⟨?_, ?_, ?_, ?_, ?_⟩ <;> simp [initState, keysA, membershipSym]

/-! Projection lemmas: which tables each handler leaves untouched. -/

theorem handleOnboarding_proj (s : EngineState) (u : String) (n : Int) :
    (handleOnboarding s u n).1.forums = s.forums ∧
    (handleOnboarding s u n).1.contents = s.contents ∧
    (handleOnboarding s u n).1.feedbacks = s.feedbacks ∧
    (handleOnboarding s u n).1.chats = s.chats := by
  unfold handleOnboarding
  dsimp only
  repeat' split
  all_goals exact ⟨rfl, rfl, rfl, rfl⟩

theorem handleForumCreation_proj (s : EngineState) (n : String) (t : Int) :
    (handleForumCreation s n t).1.users = s.users ∧
    (handleForumCreation s n t).1.contents = s.contents ∧
    (handleForumCreation s n t).1.feedbacks = s.feedbacks ∧
    (handleForumCreation s n t).1.chats = s.chats := by
  unfold handleForumCreation
  dsimp only
  repeat' split
  all_goals exact ⟨rfl, rfl, rfl, rfl⟩

theorem handleForumJoin_proj (s : EngineState) (u f : String) :
    (handleForumJoin s u f).1.contents = s.contents ∧
    (handleForumJoin s u f).1.feedbacks = s.feedbacks ∧
    (handleForumJoin s u f).1.chats = s.chats := by
  unfold handleForumJoin
  dsimp only
  repeat' split
  all_goals exact ⟨rfl, rfl, rfl⟩

theorem handleForumLeave_proj (s : EngineState) (u f : String) :
    (handleForumLeave s u f).1.contents = s.contents ∧
    (handleForumLeave s u f).1.feedbacks = s.feedbacks ∧
    (handleForumLeave s u f).1.chats = s.chats := by
  unfold handleForumLeave
  dsimp only
  repeat' split
  all_goals exact ⟨rfl, rfl, rfl⟩

theorem handleContentCreation_proj (s : EngineState) (u f t b : String)
    (sh : Bool) (o id : String) (n : Int) :
    (handleContentCreation s u f t b sh o id n).1.users = s.users ∧
    (handleContentCreation s u f t b sh o id n).1.feedbacks = s.feedbacks ∧
    (handleContentCreation s u f t b sh o id n).1.chats = s.chats := by
  unfold handleContentCreation
  dsimp only
  repeat' split
  all_goals exact ⟨rfl, rfl, rfl⟩

theorem handleFeedbackCreation_proj (s : EngineState) (u c p b id : String)
    (n : Int) :
    (handleFeedbackCreation s u c p b id n).1.users = s.users ∧
    (handleFeedbackCreation s u c p b id n).1.forums = s.forums ∧
    (handleFeedbackCreation s u c p b id n).1.chats = s.chats := by
  unfold handleFeedbackCreation
  dsimp only
  repeat' split
  all_goals exact ⟨rfl, rfl, rfl⟩

theorem handleReaction_proj (s : EngineState) (u i : String) (p c : Bool) :
    (handleReaction s u i p c).1.users = s.users ∧
    (handleReaction s u i p c).1.forums = s.forums ∧
    (handleReaction s u i p c).1.chats = s.chats := by
  unfold handleReaction
  dsimp only
  repeat' split
  all_goals exact ⟨rfl, rfl, rfl⟩

theorem handleChatDelivery_proj (s : EngineState) (a b m id : String)
    (n : Int) :
    (handleChatDelivery s a b m id n).1.users = s.users ∧
    (handleChatDelivery s a b m id n).1.forums = s.forums ∧
    (handleChatDelivery s a b m id n).1.contents = s.contents ∧
    (handleChatDelivery s a b m id n).1.feedbacks = s.feedbacks := by
  unfold handleChatDelivery
  dsimp only
  repeat' split
  all_goals exact ⟨rfl, rfl, rfl, rfl⟩

theorem handleChatRetrieval_proj (s : EngineState) (u : String) :
    (handleChatRetrieval s u).1.users = s.users ∧
    (handleChatRetrieval s u).1.forums = s.forums ∧
    (handleChatRetrieval s u).1.contents = s.contents ∧
    (handleChatRetrieval s u).1.feedbacks = s.feedbacks := by
  unfold handleChatRetrieval
  dsimp only
  repeat' split
  all_goals exact ⟨rfl, rfl, rfl, rfl⟩

theorem handleActivityUpdate_proj (s : EngineState) (u : String) (o : Bool)
    (n : Int) :
    (handleActivityUpdate s u o n).1.forums = s.forums ∧
    (handleActivityUpdate s u o n).1.contents = s.contents ∧
    (handleActivityUpdate s u o n).1.feedbacks = s.feedbacks ∧
    (handleActivityUpdate s u o n).1.chats = s.chats := by
  unfold handleActivityUpdate
  dsimp only
  repeat' split
  all_goals exact ⟨rfl, rfl, rfl, rfl⟩

theorem cleanup_proj (s : EngineState) (n : Int) :
    (cleanup s n).forums = s.forums ∧
    (cleanup s n).contents = s.contents ∧
    (cleanup s n).feedbacks = s.feedbacks :=
  ⟨rfl, rfl, rfl⟩

/-! Preservation of the membership invariant by every handler. -/

theorem memInv_of_projEq {s s' : EngineState} (hu : s'.users = s.users)
    (hf : s'.forums = s.forums) (h : memInv s) : memInv s' := by
  unfold memInv membershipSym at h ⊢
  rw [hu, hf]
  exact h

theorem memInv_handleOnboarding (s : EngineState) (uh : String) (now : Int)
    (h : memInv s) : memInv (handleOnboarding s uh now).1 := by
  obtain ⟨hnu, hnf, hmu, hfu, hbi⟩ := h
  unfold handleOnboarding
  dsimp only
  by_cases he : uh = ""
  · simp only [he, if_pos rfl]
    exact ⟨hnu, hnf, hmu, hfu, hbi⟩
  · rw [if_neg he]
    cases hu : lookupA s.users uh with
    | some _ => exact ⟨hnu, hnf, hmu, hfu, hbi⟩
    | none =>
        have hnk : uh ∉ keysA s.users := lookupA_eq_none_iff.mp hu
        have hkeys := keysA_insertA_of_not_mem
          (m := s.users) ⟨uh, 0, [], true, now⟩ hnk
        refine ⟨?_, hnf, ?_, ?_, ?_⟩
        · rw [hkeys]
          refine List.Nodup.append hnu (List.nodup_singleton uh) ?_
          intro x hx hx'
          rw [List.mem_singleton] at hx'
          subst hx'
          exact hnk hx
        · intro q hq x hx
          rw [hkeys]
          exact List.mem_append.mpr (Or.inl (hmu q hq x hx))
        · intro p hp fn hfn
          rcases mem_insertA_iff hnu |>.mp hp with rfl | ⟨hp', _⟩
          · simp at hfn
          · exact hfu p hp' fn hfn
        · intro p hp q hq
          rcases mem_insertA_iff hnu |>.mp hp with rfl | ⟨hp', _⟩
          · constructor
            · intro hmem
              exact absurd (hmu q hq _ hmem) hnk
            · intro hmem
              simp at hmem
          · exact hbi p hp' q hq

theorem memInv_handleForumCreation (s : EngineState) (fn : String) (now : Int)
    (h : memInv s) : memInv (handleForumCreation s fn now).1 := by
  obtain ⟨hnu, hnf, hmu, hfu, hbi⟩ := h
  unfold handleForumCreation
  dsimp only
  by_cases he : fn = ""
  · simp only [he, if_pos rfl]
    exact ⟨hnu, hnf, hmu, hfu, hbi⟩
  · rw [if_neg he]
    cases hf : lookupA s.forums fn with
    | some _ => exact ⟨hnu, hnf, hmu, hfu, hbi⟩
    | none =>
        have hnk : fn ∉ keysA s.forums := lookupA_eq_none_iff.mp hf
        have hkeys := keysA_insertA_of_not_mem
          (m := s.forums) ⟨fn, [], [], now⟩ hnk
        refine ⟨hnu, ?_, ?_, ?_, ?_⟩
        · rw [hkeys]
          refine List.Nodup.append hnf (List.nodup_singleton fn) ?_
          intro x hx hx'
          rw [List.mem_singleton] at hx'
          subst hx'
          exact hnk hx
        · intro q hq x hx
          rcases mem_insertA_iff hnf |>.mp hq with rfl | ⟨hq', _⟩
          · simp at hx
          · exact hmu q hq' x hx
        · intro p hp fn' hfn
          rw [hkeys]
          exact List.mem_append.mpr (Or.inl (hfu p hp fn' hfn))
        · intro p hp q hq
          rcases mem_insertA_iff hnf |>.mp hq with rfl | ⟨hq', _⟩
          · constructor
            · intro hmem
              simp at hmem
            · intro hmem
              exact absurd (hfu p hp _ hmem) hnk
          · exact hbi p hp q hq'

theorem memInv_handleForumJoin (s : EngineState) (uh sr : String)
    (h : memInv s) : memInv (handleForumJoin s uh sr).1 := by
  obtain ⟨hnu, hnf, hmu, hfu, hbi⟩ := h
  unfold handleForumJoin
  dsimp only
  cases hu : lookupA s.users uh with
  | none => exact ⟨hnu, hnf, hmu, hfu, hbi⟩
  | some user =>
  cases hf : lookupA s.forums sr with
  | none => exact ⟨hnu, hnf, hmu, hfu, hbi⟩
  | some forum =>
  dsimp only
  by_cases hmem : forum.members.contains uh
  · rw [if_pos hmem]
    exact ⟨hnu, hnf, hmu, hfu, hbi⟩
  · rw [if_neg hmem]
    have huk : uh ∈ keysA s.users := mem_keysA_of_lookupA hu
    have hfk : sr ∈ keysA s.forums := mem_keysA_of_lookupA hf
    have humem : (uh, user) ∈ s.users := lookupA_mem hu
    have hfmem : (sr, forum) ∈ s.forums := lookupA_mem hf
    refine ⟨?_, ?_, ?_, ?_, ?_⟩
    · rw [keysA_insertA_of_mem _ huk]
      exact hnu
    · rw [keysA_insertA_of_mem _ hfk]
      exact hnf
    · intro q hq x hx
      rw [keysA_insertA_of_mem _ huk]
      rcases mem_insertA_iff hnf |>.mp hq with rfl | ⟨hq', _⟩
      · rcases List.mem_append.mp hx with hx' | hx'
        · exact hmu _ hfmem x hx'
        · rw [List.mem_singleton] at hx'
          subst hx'
          exact huk
      · exact hmu q hq' x hx
    · intro p hp fn hfn
      rw [keysA_insertA_of_mem _ hfk]
      rcases mem_insertA_iff hnu |>.mp hp with rfl | ⟨hp', _⟩
      · rcases List.mem_append.mp hfn with hf' | hf'
        · exact hfu _ humem fn hf'
        · rw [List.mem_singleton] at hf'
          subst hf'
          exact hfk
      · exact hfu p hp' fn hfn
    · intro p hp q hq
      rcases mem_insertA_iff hnu |>.mp hp with rfl | ⟨hp', hpne⟩ <;>
        rcases mem_insertA_iff hnf |>.mp hq with rfl | ⟨hq', hqne⟩
      · simp
      · simp only [List.mem_append, List.mem_singleton]
        constructor
        · intro hmem'
          exact Or.inl ((hbi _ humem q hq').mp hmem')
        · intro hmem'
          rcases hmem' with hmem' | hmem'
          · exact (hbi _ humem q hq').mpr hmem'
          · exact absurd hmem' hqne
      · simp only [List.mem_append, List.mem_singleton]
        constructor
        · intro hmem'
          rcases hmem' with hmem' | hmem'
          · exact (hbi p hp' _ hfmem).mp hmem'
          · exact absurd hmem' hpne
        · intro hmem'
          exact Or.inl ((hbi p hp' _ hfmem).mpr hmem')
      · exact hbi p hp' q hq'

theorem memInv_handleForumLeave (s : EngineState) (uh sr : String)
    (h : memInv s) : memInv (handleForumLeave s uh sr).1 := by
  obtain ⟨hnu, hnf, hmu, hfu, hbi⟩ := h
  unfold handleForumLeave
  dsimp only
  cases hu : lookupA s.users uh with
  | none => exact ⟨hnu, hnf, hmu, hfu, hbi⟩
  | some user =>
  cases hf : lookupA s.forums sr with
  | none => exact ⟨hnu, hnf, hmu, hfu, hbi⟩
  | some forum =>
  dsimp only
  by_cases hmem : forum.members.contains uh
  · rw [if_pos hmem]
    have huk : uh ∈ keysA s.users := mem_keysA_of_lookupA hu
    have hfk : sr ∈ keysA s.forums := mem_keysA_of_lookupA hf
    have humem : (uh, user) ∈ s.users := lookupA_mem hu
    have hfmem : (sr, forum) ∈ s.forums := lookupA_mem hf
    refine ⟨?_, ?_, ?_, ?_, ?_⟩
    · rw [keysA_insertA_of_mem _ huk]
      exact hnu
    · rw [keysA_insertA_of_mem _ hfk]
      exact hnf
    · intro q hq x hx
      rw [keysA_insertA_of_mem _ huk]
      rcases mem_insertA_iff hnf |>.mp hq with rfl | ⟨hq', _⟩
      · exact hmu _ hfmem x (List.mem_filter.mp hx).1
      · exact hmu q hq' x hx
    · intro p hp fn hfn
      rw [keysA_insertA_of_mem _ hfk]
      rcases mem_insertA_iff hnu |>.mp hp with rfl | ⟨hp', _⟩
      · exact hfu _ humem fn (List.mem_filter.mp hfn).1
      · exact hfu p hp' fn hfn
    · intro p hp q hq
      rcases mem_insertA_iff hnu |>.mp hp with rfl | ⟨hp', hpne⟩ <;>
        rcases mem_insertA_iff hnf |>.mp hq with rfl | ⟨hq', hqne⟩
      · simp [List.mem_filter]
      · simp only [List.mem_filter, bne_iff_ne]
        constructor
        · intro hmem'
          exact ⟨(hbi _ humem q hq').mp hmem', hqne⟩
        · intro hmem'
          exact (hbi _ humem q hq').mpr hmem'.1
      · simp only [List.mem_filter, bne_iff_ne]
        constructor
        · intro hmem'
          exact (hbi p hp' _ hfmem).mp hmem'.1
        · intro hmem'
          exact ⟨(hbi p hp' _ hfmem).mpr hmem', hpne⟩
      · exact hbi p hp' q hq'
  · rw [if_neg hmem]
    exact ⟨hnu, hnf, hmu, hfu, hbi⟩

theorem memInv_handleActivityUpdate (s : EngineState) (uh : String)
    (o : Bool) (now : Int) (h : memInv s) :
    memInv (handleActivityUpdate s uh o now).1 := by
  obtain ⟨hnu, hnf, hmu, hfu, hbi⟩ := h
  unfold handleActivityUpdate
  dsimp only
  cases hu : lookupA s.users uh with
  | none => exact ⟨hnu, hnf, hmu, hfu, hbi⟩
  | some user =>
  dsimp only
  have huk : uh ∈ keysA s.users := mem_keysA_of_lookupA hu
  have humem : (uh, user) ∈ s.users := lookupA_mem hu
  refine ⟨?_, hnf, ?_, ?_, ?_⟩
  · rw [keysA_insertA_of_mem _ huk]
    exact hnu
  · intro q hq x hx
    rw [keysA_insertA_of_mem _ huk]
    exact hmu q hq x hx
  · intro p hp fn hfn
    rcases mem_insertA_iff hnu |>.mp hp with rfl | ⟨hp', _⟩
    · exact hfu _ humem fn hfn
    · exact hfu p hp' fn hfn
  · intro p hp q hq
    rcases mem_insertA_iff hnu |>.mp hp with rfl | ⟨hp', _⟩
    · exact hbi _ humem q hq
    · exact hbi p hp' q hq

theorem memInv_handleContentCreation (s : EngineState)
    (uh sr t b : String) (sh : Bool) (o id : String) (now : Int)
    (h : memInv s) : memInv (handleContentCreation s uh sr t b sh o id now).1 := by
  obtain ⟨hnu, hnf, hmu, hfu, hbi⟩ := h
  unfold handleContentCreation
  dsimp only
  cases hu : lookupA s.users uh with
  | none => exact ⟨hnu, hnf, hmu, hfu, hbi⟩
  | some _ =>
  cases hf : lookupA s.forums sr with
  | none => exact ⟨hnu, hnf, hmu, hfu, hbi⟩
  | some forum =>
  dsimp only
  have hfk : sr ∈ keysA s.forums := mem_keysA_of_lookupA hf
  have hfmem : (sr, forum) ∈ s.forums := lookupA_mem hf
  refine ⟨hnu, ?_, ?_, ?_, ?_⟩
  · rw [keysA_insertA_of_mem _ hfk]
    exact hnf
  · intro q hq x hx
    rcases mem_insertA_iff hnf |>.mp hq with rfl | ⟨hq', _⟩
    · exact hmu _ hfmem x hx
    · exact hmu q hq' x hx
  · intro p hp fn hfn
    rw [keysA_insertA_of_mem _ hfk]
    exact hfu p hp fn hfn
  · intro p hp q hq
    rcases mem_insertA_iff hnf |>.mp hq with rfl | ⟨hq', _⟩
    · exact hbi p hp (sr, forum) hfmem
    · exact hbi p hp q hq'

theorem memInv_cleanup (s : EngineState) (now : Int) (h : memInv s) :
    memInv (cleanup s now) := by
  obtain ⟨hnu, hnf, hmu, hfu, hbi⟩ := h
  unfold cleanup
  refine ⟨?_, hnf, ?_, ?_, ?_⟩
  · rw [keysA_map (sweepUser (now - 5 * 60))]
    exact hnu
  · intro q hq x hx
    rw [keysA_map (sweepUser (now - 5 * 60))]
    exact hmu q hq x hx
  · intro p hp fn hfn
    obtain ⟨q, hq, rfl⟩ := List.mem_map.mp hp
    rw [sweepUser_forums] at hfn
    exact hfu q hq fn hfn
  · intro p hp q hq
    obtain ⟨p₀, hp₀, rfl⟩ := List.mem_map.mp hp
    rw [sweepUser_forums]
    exact hbi p₀ hp₀ q hq

/-- Every command preserves the membership invariant. -/
theorem memInv_step (s : EngineState) (c : Command) (h : memInv s) :
    memInv (step s c) := by
  cases c with
  | onboardUser u now => exact memInv_handleOnboarding s u now h
  | createForum n now => exact memInv_handleForumCreation s n now h
  | joinForum u f => exact memInv_handleForumJoin s u f h
  | leaveForum u f => exact memInv_handleForumLeave s u f h
  | createContent u f t b sh o id now =>
      exact memInv_handleContentCreation s u f t b sh o id now h
  | createFeedback u c p b id now =>
      obtain ⟨h1, h2, _⟩ := handleFeedbackCreation_proj s u c p b id now
      exact memInv_of_projEq h1 h2 h
  | react u i p c =>
      obtain ⟨h1, h2, _⟩ := handleReaction_proj s u i p c
      exact memInv_of_projEq h1 h2 h
  | getFeed _ _ _ => exact h
  | getPost _ => exact h
  | getForumDetails _ => exact h
  | sendMessage a b m id now =>
      obtain ⟨h1, h2, _, _⟩ := handleChatDelivery_proj s a b m id now
      exact memInv_of_projEq h1 h2 h
  | getChats u =>
      obtain ⟨h1, h2, _, _⟩ := handleChatRetrieval_proj s u
      exact memInv_of_projEq h1 h2 h
  | setActivity u o now => exact memInv_handleActivityUpdate s u o now h
  | sweep now => exact memInv_cleanup s now h

theorem memInv_run (cs : List Command) (s : EngineState) (h : memInv s) :
    memInv (run s cs) := by
  induction cs generalizing s with
  | nil => simpa [run] using h
  | cons c rest ih =>
      have : run s (c :: rest) = run (step s c) rest := by
        simp [run]
      rw [this]
      exact ih _ (memInv_step s c h)

theorem reactionInv_initState : reactionInv initState := by
  constructor <;> intro p hp <;> simp [initState] at hp

theorem reactionInv_of_projEq {s s' : EngineState}
    (hc : s'.contents = s.contents) (hf : s'.feedbacks = s.feedbacks)
    (h : reactionInv s) : reactionInv s' := by
  unfold reactionInv at h ⊢
  rw [hc, hf]
  exact h

theorem reactionMapOk_insert {r : List (String × Int)} {points : Int}
    (h : reactionMapOk r points) (k : String) (v : Int) :
    reactionMapOk (insertA r k v) (points + (v - lookupD r k 0)) := by
  obtain ⟨hn, hs⟩ := h
  refine ⟨keysA_nodup_insertA k v hn, ?_⟩
  rw [sumVals_insertA, ← hs]
  ring

theorem reactionInv_handleContentCreation (s : EngineState)
    (uh sr t b : String) (sh : Bool) (o id : String) (now : Int)
    (h : reactionInv s) :
    reactionInv (handleContentCreation s uh sr t b sh o id now).1 := by
  obtain ⟨hc, hf⟩ := h
  unfold handleContentCreation
  dsimp only
  cases hu : lookupA s.users uh with
  | none => exact ⟨hc, hf⟩
  | some _ =>
  cases hfo : lookupA s.forums sr with
  | none => exact ⟨hc, hf⟩
  | some forum =>
  dsimp only
  refine ⟨?_, hf⟩
  intro p hp
  rcases mem_insertA hp with rfl | hp'
  · exact ⟨List.nodup_nil, rfl⟩
  · exact hc p hp'

theorem reactionInv_handleFeedbackCreation (s : EngineState)
    (uh cid pid b fid : String) (now : Int) (h : reactionInv s) :
    reactionInv (handleFeedbackCreation s uh cid pid b fid now).1 := by
  obtain ⟨hc, hf⟩ := h
  unfold handleFeedbackCreation
  dsimp only
  cases hu : lookupA s.users uh with
  | none => exact ⟨hc, hf⟩
  | some _ =>
  cases hco : lookupA s.contents cid with
  | none => exact ⟨hc, hf⟩
  | some content =>
  dsimp only
  have hnew : ∀ p ∈ insertA s.feedbacks fid
      ⟨fid, cid, uh, b, now, pid, [], [], 0⟩,
      reactionMapOk p.2.reactions p.2.points := by
    intro p hp
    rcases mem_insertA hp with rfl | hp'
    · exact ⟨List.nodup_nil, rfl⟩
    · exact hf p hp'
  by_cases hpid : pid = ""
  · rw [if_pos hpid]
    refine ⟨?_, hnew⟩
    intro p hp
    rcases mem_insertA hp with rfl | hp'
    · exact hc (cid, content) (lookupA_mem hco)
    · exact hc p hp'
  · rw [if_neg hpid]
    cases hpar : lookupA (insertA s.feedbacks fid
        ⟨fid, cid, uh, b, now, pid, [], [], 0⟩) pid with
    | none => exact ⟨hc, hnew⟩
    | some parent =>
        refine ⟨hc, ?_⟩
        intro p hp
        rcases mem_insertA hp with rfl | hp'
        · exact hnew (pid, parent) (lookupA_mem hpar)
        · exact hnew p hp'

theorem reactionInv_handleReaction (s : EngineState) (uh i : String)
    (pos isc : Bool) (h : reactionInv s) :
    reactionInv (handleReaction s uh i pos isc).1 := by
  obtain ⟨hc, hf⟩ := h
  unfold handleReaction
  dsimp only
  cases hu : lookupA s.users uh with
  | none => exact ⟨hc, hf⟩
  | some _ =>
  dsimp only
  cases isc with
  | true =>
      cases hco : lookupA s.contents i with
      | none => exact ⟨hc, hf⟩
      | some content =>
          dsimp only
          refine ⟨?_, hf⟩
          intro p hp
          rcases mem_insertA hp with rfl | hp'
          · exact reactionMapOk_insert (hc _ (lookupA_mem hco)) uh _
          · exact hc p hp'

  | false =>
      cases hfe : lookupA s.feedbacks i with
      | none => exact ⟨hc, hf⟩
      | some feedback =>
          dsimp only
          refine ⟨hc, ?_⟩
          intro p hp
          rcases mem_insertA hp with rfl | hp'
          · exact reactionMapOk_insert (hf _ (lookupA_mem hfe)) uh _
          · exact hf p hp'

/-- Every command preserves the reaction invariant. -/
theorem reactionInv_step (s : EngineState) (c : Command)
    (h : reactionInv s) : reactionInv (step s c) := by
  cases c with
  | onboardUser u now =>
      obtain ⟨_, h1, h2, _⟩ := handleOnboarding_proj s u now
      exact reactionInv_of_projEq h1 h2 h
  | createForum n now =>
      obtain ⟨_, h1, h2, _⟩ := handleForumCreation_proj s n now
      exact reactionInv_of_projEq h1 h2 h
  | joinForum u f =>
      obtain ⟨h1, h2, _⟩ := handleForumJoin_proj s u f
      exact reactionInv_of_projEq h1 h2 h
  | leaveForum u f =>
      obtain ⟨h1, h2, _⟩ := handleForumLeave_proj s u f
      exact reactionInv_of_projEq h1 h2 h
  | createContent u f t b sh o id now =>
      exact reactionInv_handleContentCreation s u f t b sh o id now h
  | createFeedback u c p b id now =>
      exact reactionInv_handleFeedbackCreation s u c p b id now h
  | react u i p c => exact reactionInv_handleReaction s u i p c h
  | getFeed _ _ _ => exact h
  | getPost _ => exact h
  | getForumDetails _ => exact h
  | sendMessage a b m id now =>
      obtain ⟨_, _, h1, h2⟩ := handleChatDelivery_proj s a b m id now
      exact reactionInv_of_projEq h1 h2 h
  | getChats u =>
      obtain ⟨_, _, h1, h2⟩ := handleChatRetrieval_proj s u
      exact reactionInv_of_projEq h1 h2 h
  | setActivity u o now =>
      obtain ⟨_, h1, h2, _⟩ := handleActivityUpdate_proj s u o now
      exact reactionInv_of_projEq h1 h2 h
  | sweep now =>
      obtain ⟨_, h1, h2⟩ := cleanup_proj s now
      exact reactionInv_of_projEq h1 h2 h

theorem reactionInv_run (cs : List Command) (s : EngineState)
    (h : reactionInv s) : reactionInv (run s cs) := by
  induction cs generalizing s with
  | nil => simpa [run] using h
  | cons c rest ih =>
      have hstep : run s (c :: rest) = run (step s c) rest := by
        simp [run]
      rw [hstep]
      exact ih _ (reactionInv_step s c h)

/-! Sortedness of the feed ranking. -/

theorem pairwise_mergeSort_le {le : Content → Content → Bool}
    (R : Content → Content → Prop)
    (hR : ∀ a b, le a b = true → R a b)
    (htrans : ∀ (a b c : Content), le a b → le b c → le a c)
    (htotal : ∀ (a b : Content), le a b || le b a)
    (l : List Content) : (l.mergeSort le).Pairwise R :=
  (List.sorted_mergeSort htrans htotal l).imp (hR _ _)

theorem hotLe_trans (a b c : Content) (hab : hotLe a b)
    (hbc : hotLe b c) : hotLe a c := by
  unfold hotLe at hab hbc ⊢
  exact decide_eq_true
    (le_trans (of_decide_eq_true hbc) (of_decide_eq_true hab))

theorem hotLe_total (a b : Content) : hotLe a b || hotLe b a := by
  unfold hotLe
  rcases le_total (contentHotScore b) (contentHotScore a) with h | h <;>
    simp [h]

theorem topLe_trans (a b c : Content) (hab : topLe a b)
    (hbc : topLe b c) : topLe a c := by
  unfold topLe at hab hbc ⊢
  exact decide_eq_true
    (le_trans (of_decide_eq_true hbc) (of_decide_eq_true hab))

theorem topLe_total (a b : Content) : topLe a b || topLe b a := by
  unfold topLe
  rcases le_total b.points a.points with h | h <;> simp [h]

theorem newLe_trans (a b c : Content) (hab : newLe a b)
    (hbc : newLe b c) : newLe a c := by
  unfold newLe at hab hbc ⊢
  exact decide_eq_true
    (le_trans (of_decide_eq_true hbc) (of_decide_eq_true hab))

theorem newLe_total (a b : Content) : newLe a b || newLe b a := by
  unfold newLe
  rcases le_total b.timestamp a.timestamp with h | h <;> simp [h]

theorem rankFeed_hot_pairwise (l : List Content) (limit : Int) :
    (rankFeed l "hot" limit).Pairwise
      (fun a b => contentHotScore b ≤ contentHotScore a) := by
  unfold rankFeed
  dsimp only
  rw [if_pos rfl]
  have hbase : (l.mergeSort hotLe).Pairwise
      (fun a b => contentHotScore b ≤ contentHotScore a) :=
    pairwise_mergeSort_le _ (fun a b h => of_decide_eq_true h)
      hotLe_trans hotLe_total l
  split
  · exact List.Pairwise.sublist (List.take_sublist _ _) hbase
  · exact hbase

theorem rankFeed_top_pairwise (l : List Content) (limit : Int) :
    (rankFeed l "top" limit).Pairwise (fun a b => b.points ≤ a.points) := by
  unfold rankFeed
  dsimp only
  rw [if_neg (show ¬("top" : String) = "hot" by decide),
    if_neg (show ¬("top" : String) = "new" by decide), if_pos rfl]
  have hbase : (l.mergeSort topLe).Pairwise
      (fun a b => b.points ≤ a.points) :=
    pairwise_mergeSort_le _ (fun a b h => of_decide_eq_true h)
      topLe_trans topLe_total l
  split
  · exact List.Pairwise.sublist (List.take_sublist _ _) hbase
  · exact hbase

theorem rankFeed_new_pairwise (l : List Content) (limit : Int) :
    (rankFeed l "new" limit).Pairwise
      (fun a b => b.timestamp ≤ a.timestamp) := by
  unfold rankFeed
  dsimp only
  rw [if_neg (show ¬("new" : String) = "hot" by decide), if_pos rfl]
  have hbase : (l.mergeSort newLe).Pairwise
      (fun a b => b.timestamp ≤ a.timestamp) :=
    pairwise_mergeSort_le _ (fun a b h => of_decide_eq_true h)
      newLe_trans newLe_total l
  split
  · exact List.Pairwise.sublist (List.take_sublist _ _) hbase
  · exact hbase

theorem rankFeed_length (l : List Content) (sm : String) (limit : Int)
    (hl : 0 < limit) : ((rankFeed l sm limit).length : Int) ≤ limit := by
  unfold rankFeed
  dsimp only
  generalize (if sm = "hot" then l.mergeSort hotLe
    else if sm = "new" then l.mergeSort newLe
    else if sm = "top" then l.mergeSort topLe
    else l) = sorted
  split
  · rename_i h
    rw [List.length_take]
    omega
  · rename_i h
    omega

/-- Hot score of a content with no reactions: the log term vanishes and
only the recency term remains. -/
theorem contentHotScore_no_reactions (c : Content)
    (h : c.reactions = []) :
    contentHotScore c = ((c.timestamp : ℝ) - 1577836800) / 45000 := by
  unfold contentHotScore CalculateHotScore upsOf downsOf
  rw [h]
  simp [Real.logb_one]

/-! Claim theorems. -/

/-- C4: after every command executed from the empty store, membership is
symmetric: a handle is in a forum's member set iff the forum's name is
in that user's forum set. -/
theorem membership_symmetry_invariant (cs : List Command) :
    membershipSym (run initState cs) :=
  (memInv_run cs initState memInv_initState).2.2.2.2

theorem membership_symmetry_invariant_witness :
    ("A" : String) ∈ (⟨"F", ["A"], [], 6⟩ : ForumData).members ↔
      ("F" : String) ∈ (⟨"A", 0, ["F"], true, 5⟩ : UserData).forums :=
  membership_symmetry_invariant
    [Command.onboardUser "A" 5, Command.createForum "F" 6,
     Command.joinForum "A" "F"]
    ("A", ⟨"A", 0, ["F"], true, 5⟩) (by decide)
    ("F", ⟨"F", ["A"], [], 6⟩) (by decide)

/-- C10: GetMessages for an existing user who never received a message
succeeds with an empty list and an unchanged store. -/
theorem getChats_empty_inbox (s : EngineState) (uh : String) (u : UserData)
    (hu : lookupA s.users uh = some u)
    (hc : lookupA s.chats uh = none) :
    (handleChatRetrieval s uh).2.success = true ∧
    (handleChatRetrieval s uh).2.messages = [] ∧
    (handleChatRetrieval s uh).1 = s := by
  unfold handleChatRetrieval
  simp [hu, hc]

theorem getChats_empty_inbox_witness :
    (handleChatRetrieval sC1 "A").2.success = true ∧
    (handleChatRetrieval sC1 "A").2.messages = [] ∧
    (handleChatRetrieval sC1 "A").1 = sC1 :=
  getChats_empty_inbox sC1 "A" userA (by decide) (by decide)

/-- C8 counterexample: a message whose timestamp is exactly now minus 30
days is removed by the sweeper, while the claim says every message with
timestamp greater than or equal to now minus 30 days is retained. -/
theorem cleanup_retention_counterexample :
    nowEx - 30 * 86400 ≤ chatM0.timestamp ∧
    chatM0 ∈ lookupD sC8.chats "B" [] ∧
    chatM0 ∉ lookupD (cleanup sC8 nowEx).chats "B" [] := by
  decide

/-- C8 amended: a sweep at time now maps every inbox to the sublist of
entries with timestamp strictly greater than now minus 30 days, kept in
original order; every entry with timestamp less than or equal to the
cutoff is dropped. -/
theorem cleanup_retention (s : EngineState) (now : Int) (uh : String) :
    lookupD (cleanup s now).chats uh [] =
      (lookupD s.chats uh []).filter
        (fun m => decide (now - 30 * 86400 < m.timestamp)) := by
  unfold cleanup lookupD
  dsimp only
  rw [lookupA_mapVal (sweepInbox (now - 30 * 86400)) s.chats uh]
  cases lookupA s.chats uh <;> simp [sweepInbox]

/-- C1 counterexample: a CreateFeedback whose non-empty parentId names
no existing feedback fails, yet the feedback table is changed by the
command. -/
theorem feedback_missing_parent_counterexample :
    (handleFeedbackCreation sC1 "A" "c1" "nope" "hi" "f1" 7).2.success
        = false ∧
    (handleFeedbackCreation sC1 "A" "c1" "nope" "hi" "f1" 7).1.feedbacks
        ≠ sC1.feedbacks := by
  decide

/-- C1 amended: when CreateFeedback fails because the non-empty parentId
names no existing feedback, the response reports failure and the users,
forums, contents and chats tables as well as every previously existing
feedback (hence every reply list and the content's top-level list) are
unchanged, but the new orphan feedback record is left in the feedback
table under its fresh id. -/
theorem feedback_missing_parent_effect (s : EngineState)
    (uh cid pid b fid : String) (now : Int) (u : UserData)
    (content : Content)
    (hu : lookupA s.users uh = some u)
    (hc : lookupA s.contents cid = some content)
    (hpid : pid ≠ "")
    (hpar : lookupA s.feedbacks pid = none)
    (hfresh : lookupA s.feedbacks fid = none)
    (hne : pid ≠ fid) :
    (handleFeedbackCreation s uh cid pid b fid now).2.success = false ∧
    (handleFeedbackCreation s uh cid pid b fid now).1 =
      { s with feedbacks :=
          s.feedbacks ++ [(fid, ⟨fid, cid, uh, b, now, pid, [], [], 0⟩)] } := by
  unfold handleFeedbackCreation
  simp only [hu, hc]
  rw [if_neg hpid]
  have h1 : lookupA (insertA s.feedbacks fid
      ⟨fid, cid, uh, b, now, pid, [], [], 0⟩) pid = none := by
    rw [lookupA_insertA_ne _ _ hne]
    exact hpar
  simp only [h1]
  refine ⟨trivial, ?_⟩
  rw [insertA_lookupA_none hfresh]

theorem feedback_missing_parent_effect_witness :
    (handleFeedbackCreation sC1 "A" "c1" "nope" "hi" "f1" 7).2.success
        = false ∧
    (handleFeedbackCreation sC1 "A" "c1" "nope" "hi" "f1" 7).1 =
      { sC1 with feedbacks :=
          sC1.feedbacks ++
            [("f1", ⟨"f1", "c1", "A", "hi", 7, "nope", [], [], 0⟩)] } :=
  feedback_missing_parent_effect sC1 "A" "c1" "nope" "hi" "f1" 7 userA
    contentC1 (by decide) (by decide) (by decide) (by decide) (by decide)
    (by decide)

/-- C5: for an existing user and forum with the user not a member,
joining succeeds and a following leave restores the entire store; a
leave without membership fails with the not-a-member outcome and
changes nothing. -/
theorem join_leave_roundtrip (s : EngineState) (uh sr : String)
    (u : UserData) (f : ForumData)
    (hu : lookupA s.users uh = some u)
    (hf : lookupA s.forums sr = some f)
    (hmem : uh ∉ f.members)
    (hsym : membershipSym s) :
    (handleForumJoin s uh sr).2.success = true ∧
    step (step s (Command.joinForum uh sr)) (Command.leaveForum uh sr) = s ∧
    (handleForumLeave s uh sr).2 = ⟨false, "User is not a member"⟩ ∧
    (handleForumLeave s uh sr).1 = s := by
  have hnf : sr ∉ u.forums := fun hin =>
    hmem ((hsym (uh, u) (lookupA_mem hu) (sr, f) (lookupA_mem hf)).mpr hin)
  have hcon : f.members.contains uh = false := by
    rw [Bool.eq_false_iff]
    intro hcel
    exact hmem (List.elem_iff.mp hcel)
  have hjoin : handleForumJoin s uh sr =
      ({ s with
          forums := insertA s.forums sr
            { f with members := f.members ++ [uh] },
          users := insertA s.users uh
            { u with forums := u.forums ++ [sr] } },
       ⟨true, "Joined forum successfully"⟩) := by
    unfold handleForumJoin
    simp only [hu, hf, hcon]
    rfl
  have hfilter : (f.members ++ [uh]).filter (fun x => x != uh) = f.members := by
    rw [List.filter_append]
    have h2 : List.filter (fun x => x != uh) [uh] = [] := by
      simp
    rw [h2, List.append_nil]
    apply List.filter_eq_self.mpr
    intro a ha
    simp only [bne_iff_ne, ne_eq, decide_not]
    intro heq
    exact hmem (heq ▸ ha)
  have hfilter2 : (u.forums ++ [sr]).filter (fun x => x != sr) = u.forums := by
    rw [List.filter_append]
    have h2 : List.filter (fun x => x != sr) [sr] = [] := by
      simp
    rw [h2, List.append_nil]
    apply List.filter_eq_self.mpr
    intro a ha
    simp only [bne_iff_ne, ne_eq, decide_not]
    intro heq
    exact hnf (heq ▸ ha)
  have hleave : handleForumLeave s uh sr = (s, ⟨false, "User is not a member"⟩) := by
    unfold handleForumLeave
    simp only [hu, hf, hcon]
    rfl
  refine ⟨by rw [hjoin], ?_, by rw [hleave], by rw [hleave]⟩
  show (handleForumLeave (handleForumJoin s uh sr).1 uh sr).1 = s
  rw [hjoin]
  have h1 : lookupA (insertA s.users uh { u with forums := u.forums ++ [sr] })
      uh = some { u with forums := u.forums ++ [sr] } :=
    lookupA_insertA_self _ _ _
  have h2 : lookupA (insertA s.forums sr
        { f with members := f.members ++ [uh] }) sr
      = some { f with members := f.members ++ [uh] } :=
    lookupA_insertA_self _ _ _
  have hcon2 : ({ f with members := f.members ++ [uh] } :
      ForumData).members.contains uh = true := by
    apply List.elem_iff.mpr
    simp
  unfold handleForumLeave
  simp only [h1, h2, hcon2, if_true]
  rw [hfilter, hfilter2, insertA_insertA, insertA_insertA]
  rw [insertA_lookupA_eq (v := f) hf, insertA_lookupA_eq (v := u) hu]

theorem join_leave_roundtrip_witness :
    (handleForumJoin sC5 "A" "G").2.success = true ∧
    step (step sC5 (Command.joinForum "A" "G"))
        (Command.leaveForum "A" "G") = sC5 ∧
    (handleForumLeave sC5 "A" "G").2 = ⟨false, "User is not a member"⟩ ∧
    (handleForumLeave sC5 "A" "G").1 = sC5 :=
  join_leave_roundtrip sC5 "A" "G" userA forumG (by decide) (by decide)
    (by decide) (by unfold membershipSym; decide)

/-- C3: after every command from the empty store every Content and
Feedback reaction map holds at most one value per user and points is
the sum of the live map; a React by a user who already reacted to that
item, be it a Content or a Feedback, replaces the previous value
without adding an entry; in particular user A reacting +1 then -1 on a
fresh content leaves points -1. -/
theorem reaction_single_slot_claim :
    (∀ cs : List Command, reactionInv (run initState cs)) ∧
    (∀ (s : EngineState) (uh itemId : String) (pos : Bool)
        (u : UserData) (content : Content),
        lookupA s.users uh = some u →
        lookupA s.contents itemId = some content →
        uh ∈ keysA content.reactions →
        ∃ content',
          lookupA (handleReaction s uh itemId pos true).1.contents itemId
              = some content' ∧
          keysA content'.reactions = keysA content.reactions ∧
          lookupA content'.reactions uh = some (if pos then 1 else -1)) ∧
    (∀ (s : EngineState) (uh itemId : String) (pos : Bool)
        (u : UserData) (feedback : Feedback),
        lookupA s.users uh = some u →
        lookupA s.feedbacks itemId = some feedback →
        uh ∈ keysA feedback.reactions →
        ∃ feedback',
          lookupA (handleReaction s uh itemId pos false).1.feedbacks itemId
              = some feedback' ∧
          keysA feedback'.reactions = keysA feedback.reactions ∧
          lookupA feedback'.reactions uh = some (if pos then 1 else -1)) ∧
    (lookupA (run initState
        [Command.onboardUser "A" 0, Command.createForum "F" 0,
         Command.createContent "A" "F" "t" "b" false "" "c1" 0,
         Command.react "A" "c1" true true,
         Command.react "A" "c1" false true]).contents "c1").map
      Content.points = some (-1) := by
  refine ⟨?_, ?_, ?_, ?_⟩
  · intro cs
    exact reactionInv_run cs initState reactionInv_initState
  · intro s uh itemId pos u content hu hc hk
    refine ⟨reactContent content uh (if pos then 1 else -1), ?_, ?_, ?_⟩
    · unfold handleReaction
      simp only [hu, hc]
      exact lookupA_insertA_self _ _ _
    · exact keysA_insertA_of_mem _ hk
    · exact lookupA_insertA_self _ _ _
  · intro s uh itemId pos u feedback hu hf hk
    refine ⟨reactFeedback feedback uh (if pos then 1 else -1), ?_, ?_, ?_⟩
    · unfold handleReaction
      simp only [hu, hf]
      exact lookupA_insertA_self _ _ _
    · exact keysA_insertA_of_mem _ hk
    · exact lookupA_insertA_self _ _ _
  · decide

theorem reaction_single_slot_claim_witness :
    (∃ content',
      lookupA (handleReaction sC3 "A" "c1" false true).1.contents "c1"
          = some content' ∧
      keysA content'.reactions = keysA contentR.reactions ∧
      lookupA content'.reactions "A" = some (if false then 1 else -1)) ∧
    (∃ feedback',
      lookupA (handleReaction sC3f "A" "f1" false false).1.feedbacks "f1"
          = some feedback' ∧
      keysA feedback'.reactions = keysA feedbackR.reactions ∧
      lookupA feedback'.reactions "A" = some (if false then 1 else -1)) :=
  ⟨reaction_single_slot_claim.2.1 sC3 "A" "c1" false userA contentR
    (by decide) (by decide) (by decide),
   reaction_single_slot_claim.2.2.1 sC3f "A" "f1" false userA feedbackR
    (by decide) (by decide) (by decide)⟩

/-- C9: repeating the same React command succeeds and leaves the store
exactly as after the first execution. -/
theorem reaction_idempotent (s : EngineState) (uh i : String)
    (pos isc : Bool) (u : UserData)
    (hu : lookupA s.users uh = some u)
    (hitem : (if isc then (lookupA s.contents i).isSome
        else (lookupA s.feedbacks i).isSome) = true) :
    handleReaction (handleReaction s uh i pos isc).1 uh i pos isc =
      ((handleReaction s uh i pos isc).1,
       ⟨true, "Reaction recorded successfully"⟩) := by
  cases isc with
  | true =>
      cases hc : lookupA s.contents i with
      | none =>
          rw [if_pos rfl, hc] at hitem
          simp at hitem
      | some content =>
          have hstep1 : handleReaction s uh i pos true =
              ({ s with contents := insertA s.contents i (reactContent content uh (if pos then 1 else -1)) },
               ⟨true, "Reaction recorded successfully"⟩) := by
            unfold handleReaction
            simp only [hu, hc]
            rfl
          have hsame : reactContent (reactContent content uh
              (if pos then 1 else -1)) uh (if pos then 1 else -1) =
              reactContent content uh (if pos then 1 else -1) := by
            unfold reactContent
            dsimp only
            simp only [lookupD, lookupA_insertA_self, insertA_insertA,
              Option.getD_some]
            simp
          rw [hstep1]
          unfold handleReaction
          dsimp only
          simp only [hu, lookupA_insertA_self, if_true]
          rw [hsame, insertA_insertA]
  | false =>
      cases hc : lookupA s.feedbacks i with
      | none =>
          rw [if_neg (by simp), hc] at hitem
          simp at hitem
      | some feedback =>
          have hstep1 : handleReaction s uh i pos false =
              ({ s with feedbacks := insertA s.feedbacks i (reactFeedback feedback uh (if pos then 1 else -1)) },
               ⟨true, "Reaction recorded successfully"⟩) := by
            unfold handleReaction
            simp only [hu, hc]
            rfl
          have hsame : reactFeedback (reactFeedback feedback uh
              (if pos then 1 else -1)) uh (if pos then 1 else -1) =
              reactFeedback feedback uh (if pos then 1 else -1) := by
            unfold reactFeedback
            dsimp only
            simp only [lookupD, lookupA_insertA_self, insertA_insertA,
              Option.getD_some]
            simp
          rw [hstep1]
          unfold handleReaction
          dsimp only
          simp only [hu, lookupA_insertA_self, Bool.false_eq_true, if_false]
          rw [hsame, insertA_insertA]

theorem reaction_idempotent_witness :
    handleReaction (handleReaction sC3 "A" "c1" true true).1 "A" "c1"
        true true =
      ((handleReaction sC3 "A" "c1" true true).1,
       ⟨true, "Reaction recorded successfully"⟩) :=
  reaction_idempotent sC3 "A" "c1" true true userA (by decide) (by decide)

/-- C7: SendMessage appends exactly one message to the receiver's inbox
and leaves the sender's untouched; the first GetMessages returns that
message marked seen, and a second GetMessages returns the same message,
still seen. -/
theorem message_roundtrip (s : EngineState)
    (alice bob body mid : String) (now : Int) (ua ub : UserData)
    (ha : lookupA s.users alice = some ua)
    (hb : lookupA s.users bob = some ub)
    (hne : alice ≠ bob)
    (hempty : lookupA s.chats bob = none) :
    (handleChatDelivery s alice bob body mid now).2.success = true ∧
    lookupD (handleChatDelivery s alice bob body mid now).1.chats bob []
      = [⟨mid, alice, bob, body, now, false⟩] ∧
    lookupA (handleChatDelivery s alice bob body mid now).1.chats alice
      = lookupA s.chats alice ∧
    (handleChatRetrieval
        (handleChatDelivery s alice bob body mid now).1 bob).2 =
      ⟨true, "Messages retrieved successfully",
       [⟨mid, alice, bob, body, now, true⟩]⟩ ∧
    (handleChatRetrieval (handleChatRetrieval
        (handleChatDelivery s alice bob body mid now).1 bob).1
        bob).2.messages = [⟨mid, alice, bob, body, now, true⟩] ∧
    lookupA (handleChatRetrieval (handleChatRetrieval
        (handleChatDelivery s alice bob body mid now).1 bob).1
        bob).1.chats alice = lookupA s.chats alice := by
  have hstep1 : handleChatDelivery s alice bob body mid now =
      ({ s with chats := insertA s.chats bob [⟨mid, alice, bob, body, now, false⟩] },
       ⟨true, "Message delivered successfully"⟩) := by
    unfold handleChatDelivery
    simp only [ha, hb]
    simp only [lookupD, hempty]
    rfl
  have hstep2 : handleChatRetrieval
      ({ s with chats := insertA s.chats bob [⟨mid, alice, bob, body, now, false⟩] })
      bob =
      ({ s with chats := insertA s.chats bob [⟨mid, alice, bob, body, now, true⟩] },
       ⟨true, "Messages retrieved successfully",
        [⟨mid, alice, bob, body, now, true⟩]⟩) := by
    unfold handleChatRetrieval
    simp only [hb, lookupA_insertA_self]
    rw [insertA_insertA]
    rfl
  have hstep3 : handleChatRetrieval
      ({ s with chats := insertA s.chats bob [⟨mid, alice, bob, body, now, true⟩] })
      bob =
      ({ s with chats := insertA s.chats bob [⟨mid, alice, bob, body, now, true⟩] },
       ⟨true, "Messages retrieved successfully",
        [⟨mid, alice, bob, body, now, true⟩]⟩) := by
    unfold handleChatRetrieval
    simp only [hb, lookupA_insertA_self]
    rw [insertA_insertA]
    rfl
  rw [hstep1]
  dsimp only
  rw [hstep2]
  dsimp only
  rw [hstep3]
  refine ⟨rfl, ?_, ?_, rfl, rfl, ?_⟩
  · rw [lookupD, lookupA_insertA_self]
    rfl
  · rw [lookupA_insertA_ne _ _ hne]
  · rw [lookupA_insertA_ne _ _ hne]

theorem message_roundtrip_witness :
    (handleChatDelivery sC7 "A" "B" "hey" "m1" 9).2.success = true ∧
    lookupD (handleChatDelivery sC7 "A" "B" "hey" "m1" 9).1.chats "B" []
      = [⟨"m1", "A", "B", "hey", 9, false⟩] ∧
    lookupA (handleChatDelivery sC7 "A" "B" "hey" "m1" 9).1.chats "A"
      = lookupA sC7.chats "A" ∧
    (handleChatRetrieval
        (handleChatDelivery sC7 "A" "B" "hey" "m1" 9).1 "B").2 =
      ⟨true, "Messages retrieved successfully",
       [⟨"m1", "A", "B", "hey", 9, true⟩]⟩ ∧
    (handleChatRetrieval (handleChatRetrieval
        (handleChatDelivery sC7 "A" "B" "hey" "m1" 9).1 "B").1
        "B").2.messages = [⟨"m1", "A", "B", "hey", 9, true⟩] ∧
    lookupA (handleChatRetrieval (handleChatRetrieval
        (handleChatDelivery sC7 "A" "B" "hey" "m1" 9).1 "B").1
        "B").1.chats "A" = lookupA sC7.chats "A" :=
  message_roundtrip sC7 "A" "B" "hey" "m1" 9 userA userB (by decide)
    (by decide) (by decide) (by decide)

/-- C2 counterexample: with the sort method unspecified (empty string)
the engine's switch matches no case and applies no sorting, so a feed
whose gather order is not descending by hot score is returned as
gathered; here the older zero-score content precedes the newer
score-one content. -/
theorem feed_hot_default_counterexample :
    (handleFeedRequest sC2 "A" "" 10).success = true ∧
    ¬ ((handleFeedRequest sC2 "A" "" 10).contents).Pairwise
        (fun a b => contentHotScore b ≤ contentHotScore a) := by
  refine ⟨rfl, ?_⟩
  have hcomp : (handleFeedRequest sC2 "A" "" 10).contents
      = [contentP1, contentP2] := rfl
  rw [hcomp]
  intro hp
  have h1 : contentHotScore contentP2 ≤ contentHotScore contentP1 :=
    (List.pairwise_cons.mp hp).1 contentP2 (by simp)
  rw [contentHotScore_no_reactions contentP1 rfl,
    contentHotScore_no_reactions contentP2 rfl] at h1
  norm_num [contentP1, contentP2] at h1

/-- C2 amended: for every GetFeed command by an existing user whose sort
method is exactly "hot", the returned contents are ordered descending by
the hot score computed by CalculateHotScore from the reaction counts
(ups = reactions with positive value, downs = the rest): score =
sign(ups-downs) * log10(max(|ups-downs|, 1)) +
(timestamp - 1577836800) / 45000.  An unspecified sort method is not
sorted by the engine (see the counterexample); the REST layer rewrites
an unspecified method to "hot" before the engine is called. -/
theorem feed_hot_sorted (s : EngineState) (uh : String) (limit : Int)
    (u : UserData) (hu : lookupA s.users uh = some u) :
    ((handleFeedRequest s uh "hot" limit).contents).Pairwise
      (fun a b => contentHotScore b ≤ contentHotScore a) := by
  have hfeed : handleFeedRequest s uh "hot" limit =
      ⟨true, "Feed retrieved successfully",
       rankFeed (gatherContents s u) "hot" limit⟩ := by
    unfold handleFeedRequest
    simp only [hu]
  rw [hfeed]
  exact rankFeed_hot_pairwise (gatherContents s u) limit

theorem feed_hot_sorted_witness :
    ((handleFeedRequest sC2 "A" "hot" 10).contents).Pairwise
      (fun a b => contentHotScore b ≤ contentHotScore a) :=
  feed_hot_sorted sC2 "A" 10 userAF (by decide)

/-- C6: a successful GetFeed with sort "top" is non-increasing in
points, with sort "new" non-increasing in timestamp, and whenever
limit > 0 the result holds at most limit entries (truncation happens
only after sorting and only when the list is longer). -/
theorem feed_sort_and_limit (s : EngineState) (uh sm : String)
    (limit : Int) (u : UserData)
    (hu : lookupA s.users uh = some u) :
    (sm = "top" →
      ((handleFeedRequest s uh sm limit).contents).Pairwise
        (fun a b => b.points ≤ a.points)) ∧
    (sm = "new" →
      ((handleFeedRequest s uh sm limit).contents).Pairwise
        (fun a b => b.timestamp ≤ a.timestamp)) ∧
    (0 < limit →
      (((handleFeedRequest s uh sm limit).contents).length : Int)
        ≤ limit) := by
  have hfeed : handleFeedRequest s uh sm limit =
      ⟨true, "Feed retrieved successfully",
       rankFeed (gatherContents s u) sm limit⟩ := by
    unfold handleFeedRequest
    simp only [hu]
  rw [hfeed]
  refine ⟨?_, ?_, ?_⟩
  · intro hsm
    subst hsm
    exact rankFeed_top_pairwise (gatherContents s u) limit
  · intro hsm
    subst hsm
    exact rankFeed_new_pairwise (gatherContents s u) limit
  · intro hl
    exact rankFeed_length (gatherContents s u) sm limit hl

theorem feed_sort_and_limit_witness :
    ((handleFeedRequest sC2 "A" "top" 1).contents).Pairwise
      (fun a b => b.points ≤ a.points) ∧
    (((handleFeedRequest sC2 "A" "top" 1).contents).length : Int) ≤ 1 :=
  ⟨(feed_sort_and_limit sC2 "A" "top" 1 userAF (by decide)).1 rfl,
   (feed_sort_and_limit sC2 "A" "top" 1 userAF (by decide)).2.2
     (by norm_num)⟩

end RedditClone
